import Mathlib

/-!
# Verification of the `cop_controller` telemetry console

Shallow embedding of the core pipeline of the `cop_controller` repository:
the line classifier of `gui_controller.py` (`App.parse_and_update` with its
two regex patterns), the serial worker loop (`SerialThread.run`,
`SerialThread.send`, `SerialThread.start_calibration`), the facade
operations (`App.connect`, `App.send_command`), the bounded plot history
(`App.update_cop_display` / the trail update of `plot.py`), and the
standalone plotting script's `read_weight` and `center_of_mass`
(`cop_visualizer/plot.py`).

Numeric values are embedded as exact rationals (`ℚ`); the embedding tracks
the decimal values denoted by the parsed tokens, ignoring IEEE-754
rounding, overflow to infinity on astronomically large exponents, and the
distinction between `0.0` and `-0.0` (none of which the verified
properties depend on).  Regex `\d` is modelled as the ASCII digits, the
device protocol being ASCII.
-/

namespace CopController

/-! ## Character-level helpers -/

/-- Maximal run of ASCII decimal digits at the head of the input, together
with the unconsumed remainder.  This is the (here deterministic) behaviour
of a greedy `\d+` whose continuation starts with a non-digit character. -/
def takeDigits : List Char → List Char × List Char
  | [] => ([], [])
  | c :: cs =>
    if c.isDigit then
      let p := takeDigits cs
      (c :: p.1, p.2)
    else ([], c :: cs)

/-- Numeric value of a digit string, most significant digit first. -/
def natOfDigits (ds : List Char) : ℕ :=
  ds.foldl (fun n c => 10 * n + (c.toNat - 48)) 0

/-- Value denoted by a signed decimal token `[-]?<ip>.<fp>`. -/
def tokVal (neg : Bool) (ip fp : List Char) : ℚ :=
  (if neg then -1 else 1) * ((natOfDigits ip : ℚ) + (natOfDigits fp : ℚ) / 10 ^ fp.length)

/-- Prefix parser for one `[-]?\d+\.\d+` regex group, as used by both
patterns of `App.__init__`.  Greedy matching of `\d+` is exact maximal
munch here because each `\d+` in the patterns is followed by a non-digit
(`.`/`,`/` `/`)`) or the end of the pattern. -/
def numTok? (cs : List Char) : Option (ℚ × List Char) :=
  let s : Bool × List Char :=
    match cs with
    | c :: r => if c = '-' then (true, r) else (false, c :: r)
    | [] => (false, [])
  let p1 := takeDigits s.2
  if p1.1.isEmpty then none
  else
    match p1.2 with
    | '.' :: r2 =>
      let p2 := takeDigits r2
      if p2.1.isEmpty then none else some (tokVal s.1 p1.1 p2.1, p2.2)
    | _ => none

/-- Consume one expected literal character. -/
def expectChar (c : Char) : List Char → Option (List Char)
  | [] => none
  | c' :: r => if c' = c then some r else none

/-! ## The frame classifier (`App.parse_and_update`)

`self.weight_pattern = re.compile(r"([-]?\d+\.\d+),([-]?\d+\.\d+),([-]?\d+\.\d+),([-]?\d+\.\d+)")`
applied with `re.match`, i.e. anchored at the start of the line but with
arbitrary trailing characters allowed. -/

/-- Prefix match of the four-weight pattern; yields the four group values. -/
def weightMatch? (cs : List Char) : Option (ℚ × ℚ × ℚ × ℚ) := do
  let (a, r1) ← numTok? cs
  let r2 ← expectChar ',' r1
  let (b, r3) ← numTok? r2
  let r4 ← expectChar ',' r3
  let (c, r5) ← numTok? r4
  let r6 ← expectChar ',' r5
  let (d, _) ← numTok? r6
  pure (a, b, c, d)

/-- Prefix match of `self.cop_pattern = re.compile(r"\(([-]?\d+\.\d+), ([-]?\d+\.\d+)\)")`. -/
def copMatch? (cs : List Char) : Option (ℚ × ℚ) := do
  let r0 ← expectChar '(' cs
  let (x, r1) ← numTok? r0
  let r2 ← expectChar ',' r1
  let r3 ← expectChar ' ' r2
  let (y, r4) ← numTok? r3
  let _ ← expectChar ')' r4
  pure (x, y)

/-- One classified unit of incoming data (the spec's `Frame`).  The
fall-through of `App.parse_and_update` (a line matching neither pattern,
which updates nothing and is only logged) is `unrecognized`. -/
inductive Frame where
  | weight (a b c d : ℚ)
  | cop (x y : ℚ)
  | unrecognized (raw : String)
  deriving DecidableEq

/-- Classification logic of `App.parse_and_update` (gui_controller.py,
lines 254-271): try the weight pattern first, then the CoP pattern, both
with `re.match`; anything else falls through. -/
def parse (line : String) : Frame :=
  match weightMatch? line.data with
  | some (a, b, c, d) => .weight a b c d
  | none =>
    match copMatch? line.data with
    | some (x, y) => .cop x y
    | none => .unrecognized line

example : parse "1.00,2.00,3.00,4.00" = .weight 1 2 3 4 := by
  simp [parse, weightMatch?, numTok?, expectChar, takeDigits, natOfDigits, tokVal]
example : parse "-1.00,2.00,3.00,4.00" = .weight (-1) 2 3 4 := by
  simp [parse, weightMatch?, numTok?, expectChar, takeDigits, natOfDigits, tokVal]
example : parse "(0.500, -0.250)" = .cop (1/2) (-(1/4)) := by
  simp [parse, weightMatch?, copMatch?, numTok?, expectChar, takeDigits, natOfDigits, tokVal]
  norm_num
example : parse "garbage" = .unrecognized "garbage" := by rfl
example : parse "1.00,2.00,3.00,4.00,5.00" = .weight 1 2 3 4 := by
  simp [parse, weightMatch?, numTok?, expectChar, takeDigits, natOfDigits, tokVal]
example : parse "(0.500, -0.250)xx" = .cop (1/2) (-(1/4)) := by
  simp [parse, weightMatch?, copMatch?, numTok?, expectChar, takeDigits, natOfDigits, tokVal]
  norm_num

/-! ## The plotting script's weight parser (`cop_visualizer/plot.py`, `read_weight`)

`read_weight` splits the decoded, stripped line on every `','`, converts
each part with Python's `float`, requires exactly 4 values, and clamps each
with `max(0.0, w)`.  Python `float()` also accepts forms the GUI regex does
not (`"7"`, `"1e3"`, `".5"`, `"inf"`, `"nan"`, surrounding whitespace), and
its failure raises `ValueError`, caught by the function (which then returns
`None`). -/

/-- Result of Python `float()`: a finite value (exact rational in this
embedding), a NaN, or a signed infinity. -/
inductive PyVal where
  | fin (q : ℚ)
  | nan
  | inf
  | ninf
  deriving DecidableEq

/-- Python `str.strip()` / the whitespace stripping of `float()` (ASCII
whitespace). -/
def pyStrip (cs : List Char) : List Char :=
  (((cs.dropWhile Char.isWhitespace).reverse).dropWhile Char.isWhitespace).reverse

/-- Decimal part of Python's `float()` grammar after the optional sign:
`digits [. digits] | . digits`, then an optional exponent.  Digit-group
underscores are not modelled. -/
def parseDecimal (neg : Bool) (cs : List Char) : Option PyVal :=
  let p1 := takeDigits cs
  let q : List Char × List Char :=
    match p1.2 with
    | '.' :: r =>
      let p2 := takeDigits r
      (p2.1, p2.2)
    | r => ([], r)
  if p1.1.isEmpty && q.1.isEmpty then none
  else
    let mant : ℚ := (natOfDigits p1.1 : ℚ) + (natOfDigits q.1 : ℚ) / 10 ^ q.1.length
    match q.2 with
    | [] => some (.fin (if neg then -mant else mant))
    | e :: r3 =>
      if e = 'e' || e = 'E' then
        let sp : Bool × List Char :=
          match r3 with
          | c :: r =>
            if c = '+' then (false, r)
            else if c = '-' then (true, r)
            else (false, c :: r)
          | [] => (false, [])
        let p3 := takeDigits sp.2
        if p3.1.isEmpty || !p3.2.isEmpty then none
        else
          let ex : ℤ := if sp.1 then -(natOfDigits p3.1 : ℤ) else (natOfDigits p3.1 : ℤ)
          some (.fin ((if neg then -mant else mant) * (10 : ℚ) ^ ex))
      else none

/-- Lower-cased characters, for the case-insensitive `inf`/`nan` forms. -/
def lowerAll (cs : List Char) : List Char := cs.map Char.toLower

/-- Python `float(s)`: strip whitespace, optional sign, then either a
decimal number or one of the special forms `inf`/`infinity`/`nan`
(case-insensitive). -/
def pyFloat? (s : String) : Option PyVal :=
  let cs0 := pyStrip s.data
  let sp : Bool × List Char :=
    match cs0 with
    | c :: r =>
      if c = '+' then (false, r)
      else if c = '-' then (true, r)
      else (false, c :: r)
    | [] => (false, [])
  match sp.2 with
  | c :: r =>
    if c.isDigit || c = '.' then parseDecimal sp.1 (c :: r)
    else if lowerAll (c :: r) = "inf".data || lowerAll (c :: r) = "infinity".data then
      some (if sp.1 then .ninf else .inf)
    else if lowerAll (c :: r) = "nan".data then some .nan
    else none
  | [] => none

/-- Python `line.split(',')`: split on every comma; `"".split(',') = [""]`. -/
def splitComma : List Char → List (List Char)
  | [] => [[]]
  | c :: cs =>
    if c = ',' then [] :: splitComma cs
    else
      match splitComma cs with
      | t :: ts => (c :: t) :: ts
      | [] => [[c]]

/-- Python `max(0.0, w)` (for a NaN second argument the comparison
`w > 0.0` is false, so `0.0` is kept). -/
def pyMax0 : PyVal → PyVal
  | .fin q => .fin (max 0 q)
  | .nan => .fin 0
  | .inf => .inf
  | .ninf => .fin 0

/-- The list comprehension `[float(part) for part in line.split(',')]`:
fails (raises `ValueError`) as soon as one part is not a float. -/
def floatList? : List String → Option (List PyVal)
  | [] => some []
  | p :: ps =>
    match pyFloat? p, floatList? ps with
    | some v, some vs => some (v :: vs)
    | _, _ => none

/-- Parsing core of `read_weight` (plot.py, lines 17-29), applied to the
decoded, stripped line: on any `ValueError` (a non-float part, or a part
count different from 4) the handler prints and the function returns
`None`; otherwise the 4 weights, each clamped by `max(0.0, w)`. -/
def read_weight (line : String) : Option (List PyVal) :=
  let parts := (splitComma line.data).map String.mk
  match floatList? parts with
  | none => none
  | some ws => if ws.length ≠ 4 then none else some (ws.map pyMax0)

example : read_weight "-1.00,2.00,3.00,4.00" =
    some [.fin 0, .fin 2, .fin 3, .fin 4] := by
  simp [read_weight, splitComma, floatList?, pyFloat?, pyStrip, parseDecimal,
    takeDigits, natOfDigits, pyMax0]
example : read_weight "1.00,2.00,3.00,4.00,5.00" = none := by
  simp [read_weight, splitComma, floatList?, pyFloat?, pyStrip, parseDecimal,
    takeDigits, natOfDigits, pyMax0]
example : read_weight "garbage" = none := by rfl

/-! ## `center_of_mass` (plot.py, lines 6-15) -/

/-- Source `center_of_mass(weights)` with `weights = [WA, WB, WC, WD]`: early
return `(0.0, 0.0)` when the total is zero, otherwise the two normalized
differences. -/
def center_of_mass (wa wb wc wd : ℚ) : ℚ × ℚ :=
  let t := wa + wb + wc + wd
  if t = 0 then (0, 0)
  else (((wb + wc) - (wa + wd)) / t, ((wc + wd) - (wa + wb)) / t)

/-! ## The bounded history trail

`App.update_cop_display` (gui_controller.py, lines 273-291) and the
`__main__` trail update of plot.py (lines 98-106) share the same logic:
append the new point, then `pop(0)` once if the length now exceeds
`PLOT_HISTORY_LENGTH`.  The parallel `x`/`y` lists are modelled as one
list of pairs (they are always pushed and popped together). -/

/-- One trail update: append, then evict the oldest point if over
capacity. -/
def pushPoint (cap : ℕ) (h : List (ℚ × ℚ)) (p : ℚ × ℚ) : List (ℚ × ℚ) :=
  let h2 := h ++ [p]
  if cap < h2.length then h2.tail else h2

/-- A sequence of trail updates. -/
def pushAll (cap : ℕ) (h : List (ℚ × ℚ)) (ps : List (ℚ × ℚ)) : List (ℚ × ℚ) :=
  ps.foldl (pushPoint cap) h

/-! ## The serial worker (`SerialThread`, gui_controller.py)

The worker's mutable attributes (`running`, `serial_connection.is_open`,
`_is_calibrating`, `_calibration_weight`) form the state; the two queues
(`data_queue`, `log_queue`) and the serial writes are the outputs of each
loop iteration.  Transport messages and log-queue entries are kept as
structured events: `TxMsg.calReply w` stands for the written string
`f"{weight}\n"` and `LogEv` constructors for the corresponding formatted
log strings. -/

/-- State of one `SerialThread` after a successful open. -/
structure WState where
  /-- the loop keeps iterating: `self.running` and no `break` taken -/
  alive : Bool
  /-- attribute `self.serial_connection and self.serial_connection.is_open` -/
  connOpen : Bool
  /-- attribute `self._is_calibrating` -/
  isCal : Bool
  /-- attribute `self._calibration_weight` (initially `None`) -/
  calW : Option ℚ
  deriving DecidableEq

/-- An outbound transport message. -/
inductive TxMsg where
  /-- call `send(data)` for a literal command string -/
  | raw (s : String)
  /-- call `send(f"{self._calibration_weight}\n")` -/
  | calReply (w : Option ℚ)
  deriving DecidableEq

/-- A `log_queue` entry. -/
inductive LogEv where
  /-- entry `f"Sent: {data.strip()}"` -/
  | sent (m : TxMsg)
  /-- entry `f"Sent calibration weight: {self._calibration_weight}"` -/
  | sentCal (w : Option ℚ)
  /-- entry `"Error: Serial device disconnected."` -/
  | ioErr
  /-- entry `f"An error occurred in serial thread: {e}"` -/
  | genericErr (msg : String)
  deriving DecidableEq

/-- The calibration prompt substring of gui_controller.py
(cop_visualizer.py differs only in this string). -/
def promptChars : List Char := "Enter the weight in lbs:".data

/-- Whether `pat` is a prefix of `cs`. -/
def startsWith : List Char → List Char → Bool
  | [], _ => true
  | _ :: _, [] => false
  | p :: ps, c :: cs => p = c && startsWith ps cs

/-- Whether `pat` occurs as a contiguous substring (Python's `in`). -/
def containsSeq (pat : List Char) : List Char → Bool
  | [] => startsWith pat []
  | c :: cs => startsWith pat (c :: cs) || containsSeq pat cs

/-- Containment test `"Enter the weight in lbs:" in line`. -/
def containsPrompt (line : String) : Bool := containsSeq promptChars line.data

/-- Combined transport writes and log entries of one operation. -/
structure StepOut where
  st : WState
  tx : List TxMsg
  logs : List LogEv
  dataOut : List String
  deriving DecidableEq

/-- Method `SerialThread.send` (lines 63-67): write and log only when the
connection object exists and is open; otherwise silently do nothing. -/
def sendW (connOpen : Bool) (m : TxMsg) : List TxMsg × List LogEv :=
  if connOpen then ([m], [.sent m]) else ([], [])

/-- The body of the read loop for one decoded line (lines 39-47): strip,
skip empty lines, fire the calibration reply on a prompt while
calibrating, and put the line on `data_queue`. -/
def onLine (st : WState) (raw : String) : StepOut :=
  let line := String.mk (pyStrip raw.data)
  if line = "" then ⟨st, [], [], []⟩
  else if containsPrompt line && st.isCal then
    let sr := sendW st.connOpen (.calReply st.calW)
    ⟨{ st with isCal := false }, sr.1, sr.2 ++ [.sentCal st.calW], [line]⟩
  else ⟨st, [], [], [line]⟩

/-- Method `SerialThread.start_calibration` (lines 69-73): store the weight, set
the flag, send the trigger byte `'k'`. -/
def start_calibration (st : WState) (w : ℚ) : WState × List TxMsg × List LogEv :=
  let st' := { st with calW := some w, isCal := true }
  let sr := sendW st'.connOpen (.raw "k")
  (st', sr.1, sr.2)

/-- Outcome of one `readline().decode('utf-8').strip()` attempt. -/
inductive RxEv where
  /-- a successfully decoded line (before stripping) -/
  | recv (s : String)
  /-- a `UnicodeDecodeError` (or any non-serial exception), message `msg` -/
  | decodeErr (msg : String)
  /-- a `serial.SerialException` mid-stream -/
  | ioErr
  deriving DecidableEq

/-- One iteration of the `while self.running` loop (lines 37-53): a decode
failure is caught by the generic handler (log, continue); a serial
exception logs and breaks. -/
def runStep (st : WState) (ev : RxEv) : StepOut :=
  if st.alive then
    match ev with
    | .recv s => onLine st s
    | .decodeErr m => ⟨st, [], [.genericErr m], []⟩
    | .ioErr => ⟨{ st with alive := false }, [], [.ioErr], []⟩
  else ⟨st, [], [], []⟩

/-- The loop over a sequence of read outcomes. -/
def runSteps (st : WState) : List RxEv → StepOut
  | [] => ⟨st, [], [], []⟩
  | e :: rest =>
    let o := runStep st e
    let o' := runSteps o.st rest
    ⟨o'.st, o.tx ++ o'.tx, o.logs ++ o'.logs, o.dataOut ++ o'.dataOut⟩

/-! ## Facade operations of `App` -/

/-- Method `App.send_command` (lines 220-225): forward to the worker's `send`
when the thread exists and is alive, else show "Not connected." in the
UI log.  Result: (transport writes, worker log entries, UI log lines). -/
def send_command (threadAlive connOpen : Bool) (cmd : String) :
    List TxMsg × List LogEv × List String :=
  if threadAlive then
    let sr := sendW connOpen (.raw cmd)
    (sr.1, sr.2, [])
  else ([], [], ["Not connected."])

/-- Connection bookkeeping of `App`: which started worker threads are
still running, and which one `self.serial_thread` refers to. -/
structure ConnState where
  /-- ids of started, not-yet-stopped `SerialThread`s -/
  live : List ℕ
  /-- the thread `self.serial_thread` currently refers to -/
  currentId : Option ℕ
  /-- id for the next `SerialThread(...)` constructed -/
  nextId : ℕ
  /-- UI log lines (`log_message`) -/
  logs : List String
  deriving DecidableEq

/-- The `App` before any connection. -/
def initConn : ConnState := ⟨[], none, 0, []⟩

/-- Method `App.connect` (lines 197-209): only guard is an empty port selection;
otherwise a new `SerialThread` is constructed and started unconditionally,
and `self.serial_thread` is overwritten, leaving any previous thread
running (only the Connect button's disabled state, a presentation detail,
prevents this path in the UI). -/
def connect (port : String) (s : ConnState) : ConnState :=
  if port = "" then { s with logs := s.logs ++ ["Please select a port first."] }
  else
    { live := s.live ++ [s.nextId], currentId := some s.nextId,
      nextId := s.nextId + 1, logs := s.logs }

/-- Nonnegativity of a Python float value (`-0.0` coincides with `0` in
the exact-rational embedding). -/
def PyVal.nonneg : PyVal → Prop
  | .fin q => 0 ≤ q
  | .nan => False
  | .inf => True
  | .ninf => False

/-! ## Decimal tokens, for stating prefix-anchoring and equivalence claims

A `DecTok` is the exact shape of one regex group `[-]?\d+\.\d+`: optional
minus sign, nonempty integer digits, a dot, nonempty fraction digits. -/

/-- One strict decimal token. -/
structure DecTok where
  neg : Bool
  ip : List Char
  fp : List Char

/-- The characters of the token. -/
def DecTok.chars (t : DecTok) : List Char :=
  (if t.neg then ['-'] else []) ++ t.ip ++ '.' :: t.fp

/-- The decimal value the token denotes. -/
def DecTok.val (t : DecTok) : ℚ := tokVal t.neg t.ip t.fp

/-- Well-formedness: nonempty digit runs on both sides of the dot. -/
def DecTok.wf (t : DecTok) : Prop :=
  t.ip ≠ [] ∧ t.fp ≠ [] ∧ (∀ c ∈ t.ip, c.isDigit = true) ∧
    (∀ c ∈ t.fp, c.isDigit = true)

instance (t : DecTok) : Decidable t.wf := by
  unfold DecTok.wf; infer_instance

/-- The first character (if any) cannot extend a digit run: this makes
"the matched prefix" of the greedy regex well defined. -/
def headNotDigit : List Char → Bool
  | [] => true
  | c :: _ => !c.isDigit

/-- A line that begins with the four-weight shape followed by arbitrary
trailing characters. -/
def weightLineChars (t1 t2 t3 t4 : DecTok) (rest : List Char) : List Char :=
  t1.chars ++ ',' :: (t2.chars ++ ',' :: (t3.chars ++ ',' :: (t4.chars ++ rest)))

/-- A line that begins with the parenthesized CoP-pair shape followed by
arbitrary trailing characters. -/
def copLineChars (t1 t2 : DecTok) (rest : List Char) : List Char :=
  '(' :: (t1.chars ++ ',' :: ' ' :: (t2.chars ++ ')' :: rest))

/-! ## Supporting lemmas -/

theorem data_mk (cs : List Char) : (String.mk cs).data = cs := rfl

theorem isDigit_ne {c d : Char} (h : c.isDigit = true)
    (hd : d.isDigit = false) : c ≠ d := by
  intro e
  rw [e, hd] at h
  cases h

theorem digit_not_ws {c : Char} (h : c.isDigit = true) :
    c.isWhitespace = false := by
  cases hw : c.isWhitespace
  · rfl
  · exfalso
    have hws : ((c = ' ' ∨ c = '\t') ∨ c = '\r') ∨ c = '\n' := by
      simpa [Char.isWhitespace] using hw
    rcases hws with ((h1 | h1) | h1) | h1 <;> subst h1 <;>
      exact absurd h (by decide)

theorem takeDigits_append (ds : List Char) (r : List Char)
    (hd : ∀ c ∈ ds, c.isDigit = true) (hr : headNotDigit r = true) :
    takeDigits (ds ++ r) = (ds, r) := by
  induction ds with
  | nil =>
    simp only [List.nil_append]
    cases r with
    | nil => rfl
    | cons c cs =>
      have hc : c.isDigit = false := by
        simpa [headNotDigit] using hr
      simp [takeDigits, hc]
  | cons d ds ih =>
    have hd1 : d.isDigit = true := hd d (by simp)
    have hrec := ih (fun c hc => hd c (by simp [hc]))
    simp [takeDigits, hd1, hrec]

theorem numTok?_spec (t : DecTok) (r : List Char) (hw : t.wf)
    (hr : headNotDigit r = true) :
    numTok? (t.chars ++ r) = some (t.val, r) := by
  obtain ⟨hip, hfp, hipd, hfpd⟩ := hw
  have hdot : headNotDigit ('.' :: (t.fp ++ r)) = true := rfl
  have htake1 : takeDigits (t.ip ++ ('.' :: (t.fp ++ r))) =
      (t.ip, '.' :: (t.fp ++ r)) := takeDigits_append t.ip _ hipd hdot
  have htake2 : takeDigits (t.fp ++ r) = (t.fp, r) :=
    takeDigits_append t.fp r hfpd hr
  have hipe : t.ip.isEmpty = false := by
    cases hi : t.ip with
    | nil => exact absurd hi hip
    | cons a l => rfl
  have hfpe : t.fp.isEmpty = false := by
    cases hi : t.fp with
    | nil => exact absurd hi hfp
    | cons a l => rfl
  cases hn : t.neg with
  | true =>
    have hch : t.chars ++ r = '-' :: (t.ip ++ ('.' :: (t.fp ++ r))) := by
      simp [DecTok.chars, hn]
    rw [hch]
    simp [numTok?, htake1, htake2, hipe, hfpe, DecTok.val, tokVal, hn]
  | false =>
    cases hi : t.ip with
    | nil => exact absurd hi hip
    | cons a ip' =>
      have ha : a.isDigit = true := hipd a (by simp [hi])
      have hne : a ≠ '-' := isDigit_ne ha (by decide)
      have hch : t.chars ++ r = a :: (ip' ++ ('.' :: (t.fp ++ r))) := by
        simp [DecTok.chars, hn, hi]
      rw [hch]
      rw [hi] at htake1
      simp only [List.cons_append] at htake1
      simp [numTok?, hne, htake1, htake2, hipe, hfpe, DecTok.val, tokVal, hn, hi]

theorem expectChar_cons (c : Char) (r : List Char) :
    expectChar c (c :: r) = some r := by
  simp [expectChar]

theorem weightMatch?_spec (t1 t2 t3 t4 : DecTok) (rest : List Char)
    (h1 : t1.wf) (h2 : t2.wf) (h3 : t3.wf) (h4 : t4.wf)
    (hr : headNotDigit rest = true) :
    weightMatch? (weightLineChars t1 t2 t3 t4 rest) =
      some (t1.val, t2.val, t3.val, t4.val) := by
  have e1 := numTok?_spec t1 (',' :: (t2.chars ++ ',' :: (t3.chars ++ ',' ::
    (t4.chars ++ rest)))) h1 rfl
  have e2 := numTok?_spec t2 (',' :: (t3.chars ++ ',' :: (t4.chars ++ rest)))
    h2 rfl
  have e3 := numTok?_spec t3 (',' :: (t4.chars ++ rest)) h3 rfl
  have e4 := numTok?_spec t4 rest h4 hr
  simp [weightMatch?, weightLineChars, e1, e2, e3, e4, expectChar_cons]

theorem copMatch?_spec (t1 t2 : DecTok) (rest : List Char)
    (h1 : t1.wf) (h2 : t2.wf) :
    copMatch? (copLineChars t1 t2 rest) = some (t1.val, t2.val) := by
  have e1 := numTok?_spec t1 (',' :: ' ' :: (t2.chars ++ ')' :: rest)) h1 rfl
  have e2 := numTok?_spec t2 (')' :: rest) h2 rfl
  simp [copMatch?, copLineChars, expectChar_cons, e1, e2]

theorem weightMatch?_lparen (cs : List Char) :
    weightMatch? ('(' :: cs) = none := by
  have hn : numTok? ('(' :: cs) = none := by
    simp [numTok?, takeDigits]
  simp [weightMatch?, hn]

theorem dropWhileAll {p : Char → Bool} (cs : List Char)
    (h : ∀ c ∈ cs, p c = false) : cs.dropWhile p = cs := by
  cases cs with
  | nil => rfl
  | cons c cs' => simp [List.dropWhile_cons, h c (by simp)]

theorem pyStrip_eq_self (cs : List Char)
    (h : ∀ c ∈ cs, c.isWhitespace = false) : pyStrip cs = cs := by
  unfold pyStrip
  rw [dropWhileAll cs h,
    dropWhileAll cs.reverse (fun c hc => h c (List.mem_reverse.1 hc)),
    List.reverse_reverse]

theorem mem_chars_plain {t : DecTok} (hw : t.wf) (hn : t.neg = false)
    {c : Char} (hc : c ∈ t.chars) : c.isDigit = true ∨ c = '.' := by
  obtain ⟨-, -, hipd, hfpd⟩ := hw
  simp [DecTok.chars, hn] at hc
  rcases hc with h | h | h
  · exact .inl (hipd c h)
  · exact .inr h
  · exact .inl (hfpd c h)

theorem chars_ne_comma {t : DecTok} (hw : t.wf) (hn : t.neg = false)
    {c : Char} (hc : c ∈ t.chars) : c ≠ ',' := by
  rcases mem_chars_plain hw hn hc with h | h
  · exact isDigit_ne h (by decide)
  · subst h; decide

theorem chars_not_ws {t : DecTok} (hw : t.wf) (hn : t.neg = false)
    {c : Char} (hc : c ∈ t.chars) : c.isWhitespace = false := by
  rcases mem_chars_plain hw hn hc with h | h
  · exact digit_not_ws h
  · subst h; decide

theorem splitComma_append (a : List Char) (r : List Char)
    (h : ∀ c ∈ a, c ≠ ',') :
    splitComma (a ++ ',' :: r) = a :: splitComma r := by
  induction a with
  | nil => simp [splitComma]
  | cons c a' ih =>
    have hc : c ≠ ',' := h c (by simp)
    have hrec := ih (fun x hx => h x (by simp [hx]))
    simp [splitComma, hc, hrec]

theorem splitComma_of_no_comma (a : List Char) (h : ∀ c ∈ a, c ≠ ',') :
    splitComma a = [a] := by
  induction a with
  | nil => rfl
  | cons c a' ih =>
    simp [splitComma, h c (by simp), ih (fun x hx => h x (by simp [hx]))]

theorem tokVal_plain_nonneg (ip fp : List Char) : 0 ≤ tokVal false ip fp := by
  simp only [tokVal, Bool.false_eq_true, if_false, one_mul]
  positivity

theorem pyFloat?_plain_tok (t : DecTok) (hw : t.wf) (hn : t.neg = false) :
    pyFloat? (String.mk t.chars) = some (.fin t.val) := by
  obtain ⟨hip, hfp, hipd, hfpd⟩ := hw
  have hstrip : pyStrip t.chars = t.chars :=
    pyStrip_eq_self t.chars (fun c hc => chars_not_ws ⟨hip, hfp, hipd, hfpd⟩ hn hc)
  cases hi : t.ip with
  | nil => exact absurd hi hip
  | cons a ip' =>
    have ha : a.isDigit = true := hipd a (by simp [hi])
    have hne1 : a ≠ '+' := isDigit_ne ha (by decide)
    have hne2 : a ≠ '-' := isDigit_ne ha (by decide)
    have hch : t.chars = a :: (ip' ++ ('.' :: t.fp)) := by
      simp [DecTok.chars, hn, hi]
    have htake1 : takeDigits (t.ip ++ ('.' :: t.fp)) = (t.ip, '.' :: t.fp) :=
      takeDigits_append t.ip _ hipd rfl
    have htake2 : takeDigits (t.fp ++ []) = (t.fp, []) :=
      takeDigits_append t.fp [] hfpd rfl
    rw [List.append_nil] at htake2
    rw [hi] at htake1
    simp only [List.cons_append] at htake1
    have hipe : (a :: ip').isEmpty = false := rfl
    rw [hch] at hstrip
    simp only [pyFloat?, data_mk, hch, hstrip, if_neg hne1, if_neg hne2,
      ha, Bool.true_or, if_true, parseDecimal, htake1, htake2, hipe,
      Bool.false_and, List.isEmpty_nil]
    simp [DecTok.val, tokVal, hn, hi]

theorem pushAll_eq_drop (cap : ℕ) (ps : List (ℚ × ℚ)) :
    ∀ h : List (ℚ × ℚ), h.length ≤ cap →
      pushAll cap h ps = (h ++ ps).drop ((h ++ ps).length - cap) := by
  induction ps with
  | nil =>
    intro h hh
    simp [pushAll, Nat.sub_eq_zero_of_le hh]
  | cons p ps ih =>
    intro h hh
    have hstep : pushAll cap h (p :: ps) = pushAll cap (pushPoint cap h p) ps := by
      simp [pushAll]
    rcases lt_or_eq_of_le hh with hlt | heq
    · have hcond : ¬ cap < (h ++ [p]).length := by simp; omega
      have hpp : pushPoint cap h p = h ++ [p] := by
        simp only [pushPoint, if_neg hcond]
      rw [hstep, hpp, ih (h ++ [p]) (by simp; omega)]
      rw [List.append_cons h p ps]
    · have hcond : cap < (h ++ [p]).length := by simp; omega
      have hpp : pushPoint cap h p = (h ++ [p]).tail := by
        simp only [pushPoint, if_pos hcond]
      have htl : (h ++ [p]).tail = (h ++ [p]).drop 1 := by
        cases h <;> simp
      have hlen : ((h ++ [p]).drop 1).length ≤ cap := by simp; omega
      rw [hstep, hpp, htl, ih _ hlen]
      have hsplit : (h ++ [p]).drop 1 ++ ps = (h ++ (p :: ps)).drop 1 := by
        rw [List.append_cons h p ps]
        exact (List.drop_append_of_le_length (by simp)).symm
      rw [hsplit, List.drop_drop]
      congr 1
      simp only [List.length_drop, List.length_append, List.length_cons,
        List.length_nil]
      omega

theorem pyMax0_nonneg (v : PyVal) : (pyMax0 v).nonneg := by
  cases v with
  | fin q => simp [pyMax0, PyVal.nonneg]
  | nan => simp [pyMax0, PyVal.nonneg]
  | inf => simp [pyMax0, PyVal.nonneg]
  | ninf => simp [pyMax0, PyVal.nonneg]

/-! ## Claim theorems -/

/-- C10: `center_of_mass` is total: a zero total takes the early-return
branch and yields `(0, 0)` without dividing, and for nonnegative weights
with a positive total both returned coordinates lie in `[-1, 1]`. -/
theorem center_of_mass_total_bounded (wa wb wc wd : ℚ) :
    (wa + wb + wc + wd = 0 → center_of_mass wa wb wc wd = (0, 0)) ∧
    (0 ≤ wa → 0 ≤ wb → 0 ≤ wc → 0 ≤ wd → 0 < wa + wb + wc + wd →
      -1 ≤ (center_of_mass wa wb wc wd).1 ∧ (center_of_mass wa wb wc wd).1 ≤ 1 ∧
      -1 ≤ (center_of_mass wa wb wc wd).2 ∧ (center_of_mass wa wb wc wd).2 ≤ 1) := by
  constructor
  · intro h
    simp [center_of_mass, h]
  · intro ha hb hc hd ht
    have hne : wa + wb + wc + wd ≠ 0 := ne_of_gt ht
    simp only [center_of_mass, if_neg hne]
    refine ⟨?_, ?_, ?_, ?_⟩
    · rw [le_div_iff₀ ht]; linarith
    · rw [div_le_one ht]; linarith
    · rw [le_div_iff₀ ht]; linarith
    · rw [div_le_one ht]; linarith

/-- Witness for C10 at the concrete inputs `(0,0,0,0)` and `(1,2,3,4)`. -/
theorem center_of_mass_total_bounded_w :
    center_of_mass 0 0 0 0 = (0, 0) ∧
    (-1 ≤ (center_of_mass 1 2 3 4).1 ∧ (center_of_mass 1 2 3 4).1 ≤ 1 ∧
     -1 ≤ (center_of_mass 1 2 3 4).2 ∧ (center_of_mass 1 2 3 4).2 ≤ 1) :=
  ⟨(center_of_mass_total_bounded 0 0 0 0).1 (by norm_num),
   (center_of_mass_total_bounded 1 2 3 4).2 (by norm_num) (by norm_num)
     (by norm_num) (by norm_num) (by norm_num)⟩

/-- C3: starting from an empty trail with capacity `cap`, pushing more
than `cap` points leaves exactly the last `cap` points in push order, and
the stored length never exceeds `cap` after any sequence of pushes. -/
theorem history_window_last_n (cap : ℕ) (ps : List (ℚ × ℚ)) :
    (cap < ps.length → pushAll cap [] ps = ps.drop (ps.length - cap)) ∧
    (pushAll cap [] ps).length ≤ cap := by
  have h := pushAll_eq_drop cap ps [] (by simp)
  simp only [List.nil_append] at h
  constructor
  · intro _
    exact h
  · rw [h]
    simp
    omega

/-- Witness for C3: capacity 2, three pushes keep the last two points. -/
theorem history_window_last_n_w :
    2 < 3 ∧
    pushAll 2 [] [((1 : ℚ), (1 : ℚ)), (2, 2), (3, 3)] = [(2, 2), (3, 3)] := by
  have h := (history_window_last_n 2 [((1 : ℚ), (1 : ℚ)), (2, 2), (3, 3)]).1
    (by norm_num)
  exact ⟨by norm_num, h.trans rfl⟩

/-- C4: a line matching neither the weight shape nor the CoP shape is
classified as `unrecognized` carrying the original string; `parse` is a
total function, so no input makes it raise. -/
theorem parse_total_unrecognized (line : String)
    (hw : weightMatch? line.data = none) (hc : copMatch? line.data = none) :
    parse line = Frame.unrecognized line := by
  simp [parse, hw, hc]

/-- Witness for C4 at the concrete line `"garbage"`. -/
theorem parse_total_unrecognized_w :
    weightMatch? "garbage".data = none ∧ copMatch? "garbage".data = none ∧
    parse "garbage" = Frame.unrecognized "garbage" :=
  ⟨rfl, rfl, parse_total_unrecognized "garbage" rfl rfl⟩

/-- C5 counterexample: a decode failure leaves the loop running and logs
the exception, but puts nothing on `data_queue` — the undecodable line is
dropped, not forwarded as an `Unrecognized` frame after a lossy decode. -/
theorem decode_error_line_dropped :
    runStep ⟨true, true, false, none⟩ (RxEv.decodeErr "invalid utf-8") =
      ⟨⟨true, true, false, none⟩, [], [LogEv.genericErr "invalid utf-8"], []⟩ := rfl

/-- C5 amended: on a decode failure the worker logs the exception and the
loop continues (the connection is not terminated), but the failed line is
dropped: no data-channel output is produced for it. -/
theorem decode_error_loop_continues (st : WState) (m : String)
    (h : st.alive = true) :
    runStep st (.decodeErr m) = ⟨st, [], [LogEv.genericErr m], []⟩ := by
  simp [runStep, h]

/-- Witness for the amended C5 at a concrete state and message. -/
theorem decode_error_loop_continues_w :
    runStep ⟨true, true, false, none⟩ (RxEv.decodeErr "bad byte") =
      ⟨⟨true, true, false, none⟩, [], [LogEv.genericErr "bad byte"], []⟩ :=
  decode_error_loop_continues ⟨true, true, false, none⟩ "bad byte" rfl

/-- C6 counterexample: the worker's `send` with the transport closed
performs no write and also emits no log entry — it is a silent no-op,
not a no-op-with-log. -/
theorem worker_send_closed_silent :
    sendW false (TxMsg.raw "c") = ([], []) := rfl

/-- C6 amended: the worker's `send` while the transport is absent/closed
writes nothing and logs nothing; at the facade, `send_command` while
disconnected writes nothing and shows exactly the UI log line
"Not connected.". -/
theorem send_noop_behavior (cmd : String) (connOpen : Bool) :
    sendW false (TxMsg.raw cmd) = ([], []) ∧
    send_command false connOpen cmd = ([], [], ["Not connected."]) :=
  ⟨rfl, rfl⟩

/-- C7 counterexample: two successive `connect` calls with a selected port
start two workers, both left running, and the second call emits no log
entry — it is not a no-op-with-log. -/
theorem connect_twice_stacks_workers :
    connect "COM3" (connect "COM3" initConn) =
      ⟨[0, 1], some 1, 2, []⟩ := rfl

/-- C7 amended: `connect` performs no already-connected check: every call
with a nonempty port starts a fresh worker and overwrites the reference,
leaving the previous worker running (worker count grows); the only
no-op-with-log case is an empty port selection.  At most one worker is
ensured only by the UI disabling the Connect button. -/
theorem connect_no_guard (s : ConnState) (port : String) (h : port ≠ "") :
    connect port s =
      ⟨s.live ++ [s.nextId], some s.nextId, s.nextId + 1, s.logs⟩ ∧
    connect "" s = { s with logs := s.logs ++ ["Please select a port first."] } := by
  constructor
  · simp [connect, h]
  · simp [connect]

/-- Witness for the amended C7 at the initial state. -/
theorem connect_no_guard_w :
    connect "COM3" initConn = ⟨[0], some 0, 1, []⟩ ∧
    connect "" initConn = ⟨[], none, 0, ["Please select a port first."]⟩ := by
  have h := connect_no_guard initConn "COM3" (by simp)
  simpa [initConn] using h

/-- C1 counterexample: the GUI classifier keeps the raw signed value: the
line `"-1.00,2.00,3.00,4.00"` parses to weights `(-1, 2, 3, 4)`, not to
the clamped `(0, 2, 3, 4)`. -/
theorem gui_parse_negative_not_clamped :
    parse "-1.00,2.00,3.00,4.00" = Frame.weight (-1) 2 3 4 ∧
    Frame.weight (-1) 2 3 4 ≠ Frame.weight 0 2 3 4 := by
  constructor
  · simp [parse, weightMatch?, numTok?, expectChar, takeDigits, natOfDigits, tokVal]
  · simp

/-- C1 amended: only the plotting script's `read_weight` clamps: every
weight list it accepts consists of values `≥ 0` (negative raw values are
clamped to `0.0`); the GUI classifier passes raw signed values through. -/
theorem read_weight_clamps_nonneg (line : String) (ws : List PyVal)
    (h : read_weight line = some ws) : ∀ v ∈ ws, v.nonneg := by
  simp only [read_weight] at h
  cases hf : floatList? ((splitComma line.data).map String.mk) with
  | none => rw [hf] at h; simp at h
  | some us =>
    rw [hf] at h
    by_cases hl : us.length ≠ 4
    · simp [hl] at h
    · simp [hl] at h
      intro v hv
      rw [← h] at hv
      obtain ⟨u, _, rfl⟩ := List.mem_map.1 hv
      exact pyMax0_nonneg u

/-- Witness for the amended C1: `"-1.00,2.00,3.00,4.00"` is accepted by
`read_weight` with the negative value clamped, and all four results are
nonnegative. -/
theorem read_weight_clamps_nonneg_w :
    read_weight "-1.00,2.00,3.00,4.00" =
      some [PyVal.fin 0, .fin 2, .fin 3, .fin 4] ∧
    ∀ v ∈ [PyVal.fin 0, PyVal.fin 2, PyVal.fin 3, PyVal.fin 4], v.nonneg := by
  have he : read_weight "-1.00,2.00,3.00,4.00" =
      some [PyVal.fin 0, .fin 2, .fin 3, .fin 4] := by
    simp [read_weight, splitComma, floatList?, pyFloat?, pyStrip, parseDecimal,
      takeDigits, natOfDigits, pyMax0]
  exact ⟨he, read_weight_clamps_nonneg _ _ he⟩

/-- C9 counterexample: on `"-1.00,2.00,3.00,4.00"` both parsers accept,
but the GUI yields first weight `-1` while the plotting script yields `0`
— the two front ends do not implement the same processing. -/
theorem parsers_disagree_on_negative :
    parse "-1.00,2.00,3.00,4.00" = Frame.weight (-1) 2 3 4 ∧
    read_weight "-1.00,2.00,3.00,4.00" =
      some [PyVal.fin 0, .fin 2, .fin 3, .fin 4] ∧
    ((-1 : ℚ) ≠ 0) := by
  refine ⟨?_, ?_, by norm_num⟩
  · simp [parse, weightMatch?, numTok?, expectChar, takeDigits, natOfDigits, tokVal]
  · simp [read_weight, splitComma, floatList?, pyFloat?, pyStrip, parseDecimal,
      takeDigits, natOfDigits, pyMax0]

theorem onLine_not_cal (st : WState) (l : String) (h : st.isCal = false) :
    (onLine st l).st = st ∧ (onLine st l).tx = [] ∧ (onLine st l).logs = [] := by
  simp only [onLine, h, Bool.and_false]
  split <;> simp

theorem runStep_not_cal (st : WState) (e : RxEv) (h : st.isCal = false) :
    (runStep st e).tx = [] ∧ (runStep st e).st.isCal = false := by
  by_cases ha : st.alive
  · cases e with
    | recv s =>
      have ho := onLine_not_cal st s h
      simp only [runStep, ha, if_true]
      exact ⟨ho.2.1, by rw [ho.1]; exact h⟩
    | decodeErr m => simp [runStep, ha, h]
    | ioErr => simp [runStep, ha, h]
  · simp only [Bool.not_eq_true] at ha
    simp [runStep, ha, h]

theorem runSteps_not_cal (evs : List RxEv) :
    ∀ st : WState, st.isCal = false →
      (runSteps st evs).tx = [] ∧ (runSteps st evs).st.isCal = false := by
  induction evs with
  | nil => intro st h; simpa [runSteps] using h
  | cons e rest ih =>
    intro st h
    have h1 := runStep_not_cal st e h
    have h2 := ih (runStep st e).st h1.2
    simp only [runSteps]
    exact ⟨by rw [h1.1, h2.1]; rfl, h2.2⟩

theorem onLine_no_prompt (st : WState) (l : String)
    (h : containsPrompt (String.mk (pyStrip l.data)) = false) :
    (onLine st l).st = st ∧ (onLine st l).tx = [] ∧ (onLine st l).logs = [] := by
  simp only [onLine, h, Bool.false_and]
  split <;> simp

theorem runSteps_no_prompt (pre : List String) :
    ∀ st : WState, st.alive = true →
      (∀ l ∈ pre, containsPrompt (String.mk (pyStrip l.data)) = false) →
      (runSteps st (pre.map RxEv.recv)).st = st ∧
      (runSteps st (pre.map RxEv.recv)).tx = [] ∧
      (runSteps st (pre.map RxEv.recv)).logs = [] := by
  induction pre with
  | nil => intro st ha hp; exact ⟨rfl, rfl, rfl⟩
  | cons l rest ih =>
    intro st ha hp
    have h1 := onLine_no_prompt st l (hp l (by simp))
    have hr : runStep st (RxEv.recv l) = onLine st l := by
      simp [runStep, ha]
    have h2 := ih st ha (fun x hx => hp x (by simp [hx]))
    simp only [List.map_cons, runSteps, hr, h1.1]
    exact ⟨h2.1, by rw [h1.2.1, h2.2.1]; rfl, by rw [h1.2.2, h2.2.2]; rfl⟩

theorem onLine_fires (st : WState) (l : String)
    (hc : st.isCal = true) (ho : st.connOpen = true)
    (hp : containsPrompt (String.mk (pyStrip l.data)) = true) :
    onLine st l = ⟨{ st with isCal := false },
      [TxMsg.calReply st.calW],
      [LogEv.sent (TxMsg.calReply st.calW), LogEv.sentCal st.calW],
      [String.mk (pyStrip l.data)]⟩ := by
  have hne : ¬ (String.mk (pyStrip l.data) = "") := by
    intro h0
    have hfalse : containsPrompt "" = false := rfl
    rw [h0, hfalse] at hp
    simp at hp
  simp only [onLine, if_neg hne, hp, hc, Bool.and_self, if_true, sendW, ho]
  rfl

theorem runSteps_append (evs1 evs2 : List RxEv) : ∀ st : WState,
    runSteps st (evs1 ++ evs2) =
      ⟨(runSteps (runSteps st evs1).st evs2).st,
       (runSteps st evs1).tx ++ (runSteps (runSteps st evs1).st evs2).tx,
       (runSteps st evs1).logs ++ (runSteps (runSteps st evs1).st evs2).logs,
       (runSteps st evs1).dataOut ++
         (runSteps (runSteps st evs1).st evs2).dataOut⟩ := by
  induction evs1 with
  | nil => intro st; simp [runSteps]
  | cons e rest ih =>
    intro st
    simp only [List.cons_append, runSteps, List.append_eq]
    rw [ih ((runStep st e).st)]
    simp [List.append_assoc]

/-- C2: arming sends the trigger `'k'`; then over any line sequence
containing a first prompt line, the worker writes the calibration reply
exactly once (for the armed weight) and clears the armed flag at that
moment, so later prompt lines — here an arbitrary `post`, which may
contain more prompts — produce no further write. -/
theorem calibration_fires_exactly_once
    (st : WState) (w : ℚ) (pre post : List String) (line : String)
    (halive : st.alive = true) (hconn : st.connOpen = true)
    (hpre : ∀ l ∈ pre, containsPrompt (String.mk (pyStrip l.data)) = false)
    (hline : containsPrompt (String.mk (pyStrip line.data)) = true) :
    (start_calibration st w).2.1 = [TxMsg.raw "k"] ∧
    (runSteps (start_calibration st w).1
        ((pre ++ line :: post).map RxEv.recv)).tx =
      [TxMsg.calReply (some w)] ∧
    (runSteps (start_calibration st w).1
        ((pre ++ line :: post).map RxEv.recv)).st.isCal = false := by
  have hstc : (start_calibration st w).1 = { st with calW := some w, isCal := true } := rfl
  have hk : (start_calibration st w).2.1 = [TxMsg.raw "k"] := by
    simp [start_calibration, sendW, hconn]
  set st1 : WState := { st with calW := some w, isCal := true } with hst1
  have hpre1 := runSteps_no_prompt pre st1 (by simp [hst1, halive]) hpre
  have hr : runStep st1 (RxEv.recv line) = onLine st1 line := by
    simp [runStep, hst1, halive]
  have hfire := onLine_fires st1 line (by simp [hst1]) (by simp [hst1, hconn]) hline
  set st2 : WState := { st1 with isCal := false } with hst2
  have hpost := runSteps_not_cal (post.map RxEv.recv) st2 (by simp [hst2])
  refine ⟨hk, ?_, ?_⟩
  · rw [hstc, List.map_append, runSteps_append]
    simp only [hpre1.1, hpre1.2.1, List.map_cons, runSteps, hr, hfire]
    rw [hpost.1]
    simp [hst1]
  · rw [hstc, List.map_append, runSteps_append]
    simp only [hpre1.1, List.map_cons, runSteps, hr, hfire]
    exact hpost.2

/-- Witness for C2: armed with weight 5, one ordinary weight line, the
prompt line, then a second prompt line which produces no further write. -/
theorem calibration_fires_exactly_once_w :
    (start_calibration ⟨true, true, false, none⟩ 5).2.1 = [TxMsg.raw "k"] ∧
    (runSteps (start_calibration ⟨true, true, false, none⟩ 5).1
        ((["1.00,2.00,3.00,4.00"] ++ "Enter the weight in lbs: " ::
          ["Enter the weight in lbs:"]).map RxEv.recv)).tx =
      [TxMsg.calReply (some 5)] ∧
    (runSteps (start_calibration ⟨true, true, false, none⟩ 5).1
        ((["1.00,2.00,3.00,4.00"] ++ "Enter the weight in lbs: " ::
          ["Enter the weight in lbs:"]).map RxEv.recv)).st.isCal = false :=
  calibration_fires_exactly_once ⟨true, true, false, none⟩ 5
    ["1.00,2.00,3.00,4.00"] ["Enter the weight in lbs:"]
    "Enter the weight in lbs: " rfl rfl
    (by intro l hl; simp at hl; subst hl; rfl) rfl

/-- C8: classification is prefix-anchored: a line beginning with the
four-weight shape (its matched prefix delimited by a non-digit or end of
line) is classified as a `WeightReading` with the prefix's values, for any
trailing characters; a line beginning with the parenthesized pair shape is
classified as a `CopReading`, for any trailing characters. -/
theorem parse_prefix_anchored
    (t1 t2 t3 t4 u1 u2 : DecTok) (rest rest2 : List Char)
    (h1 : t1.wf) (h2 : t2.wf) (h3 : t3.wf) (h4 : t4.wf)
    (hr : headNotDigit rest = true) (g1 : u1.wf) (g2 : u2.wf) :
    parse (String.mk (weightLineChars t1 t2 t3 t4 rest)) =
      Frame.weight t1.val t2.val t3.val t4.val ∧
    parse (String.mk (copLineChars u1 u2 rest2)) = Frame.cop u1.val u2.val := by
  constructor
  · have hm := weightMatch?_spec t1 t2 t3 t4 rest h1 h2 h3 h4 hr
    simp [parse, data_mk, hm]
  · have hw : weightMatch? (copLineChars u1 u2 rest2) = none := by
      simp only [copLineChars]
      exact weightMatch?_lparen _
    have hc := copMatch?_spec u1 u2 rest2 g1 g2
    simp [parse, data_mk, hw, hc]

/-- Witness for C8: concrete tokens with stray trailing characters
(`"1.0,-2.5,3.0,4.0xy"` and `"(0.5, -0.25)@"`). -/
theorem parse_prefix_anchored_w :
    parse (String.mk (weightLineChars ⟨false, ['1'], ['0']⟩ ⟨true, ['2'], ['5']⟩
        ⟨false, ['3'], ['0']⟩ ⟨false, ['4'], ['0']⟩ ['x', 'y'])) =
      Frame.weight (DecTok.val ⟨false, ['1'], ['0']⟩)
        (DecTok.val ⟨true, ['2'], ['5']⟩) (DecTok.val ⟨false, ['3'], ['0']⟩)
        (DecTok.val ⟨false, ['4'], ['0']⟩) ∧
    parse (String.mk (copLineChars ⟨false, ['0'], ['5']⟩
        ⟨true, ['0'], ['2', '5']⟩ ['@'])) =
      Frame.cop (DecTok.val ⟨false, ['0'], ['5']⟩)
        (DecTok.val ⟨true, ['0'], ['2', '5']⟩) :=
  parse_prefix_anchored ⟨false, ['1'], ['0']⟩ ⟨true, ['2'], ['5']⟩
    ⟨false, ['3'], ['0']⟩ ⟨false, ['4'], ['0']⟩ ⟨false, ['0'], ['5']⟩
    ⟨true, ['0'], ['2', '5']⟩ ['x', 'y'] ['@'] (by decide) (by decide)
    (by decide) (by decide) rfl (by decide) (by decide)

/-- C9 amended: the GUI classifier and the plotting script's `read_weight`
agree only on lines that are exactly four unsigned strict decimal tokens
joined by commas (both accept, same four values); in general they diverge:
negative values are clamped only by the plotting script, and lines with
trailing content beyond the four tokens are accepted only by the GUI's
prefix match. -/
theorem parsers_agree_on_plain_tokens
    (t1 t2 t3 t4 : DecTok)
    (h1 : t1.wf) (h2 : t2.wf) (h3 : t3.wf) (h4 : t4.wf)
    (n1 : t1.neg = false) (n2 : t2.neg = false) (n3 : t3.neg = false)
    (n4 : t4.neg = false) :
    parse (String.mk (weightLineChars t1 t2 t3 t4 [])) =
      Frame.weight t1.val t2.val t3.val t4.val ∧
    read_weight (String.mk (weightLineChars t1 t2 t3 t4 [])) =
      some [.fin t1.val, .fin t2.val, .fin t3.val, .fin t4.val] := by
  have hmax : ∀ (t : DecTok), t.neg = false → max 0 t.val = t.val := by
    intro t hn
    refine max_eq_right ?_
    rw [DecTok.val, hn]
    exact tokVal_plain_nonneg t.ip t.fp
  constructor
  · have hm := weightMatch?_spec t1 t2 t3 t4 [] h1 h2 h3 h4 rfl
    simp [parse, data_mk, hm]
  · have hsplit : splitComma (weightLineChars t1 t2 t3 t4 []) =
        [t1.chars, t2.chars, t3.chars, t4.chars] := by
      simp only [weightLineChars, List.append_nil]
      rw [splitComma_append _ _ (fun c hc => chars_ne_comma h1 n1 hc),
        splitComma_append _ _ (fun c hc => chars_ne_comma h2 n2 hc),
        splitComma_append _ _ (fun c hc => chars_ne_comma h3 n3 hc),
        splitComma_of_no_comma _ (fun c hc => chars_ne_comma h4 n4 hc)]
    have p1 := pyFloat?_plain_tok t1 h1 n1
    have p2 := pyFloat?_plain_tok t2 h2 n2
    have p3 := pyFloat?_plain_tok t3 h3 n3
    have p4 := pyFloat?_plain_tok t4 h4 n4
    simp [read_weight, data_mk, hsplit, floatList?, p1, p2, p3, p4, pyMax0,
      hmax t1 n1, hmax t2 n2, hmax t3 n3, hmax t4 n4]

/-- Witness for the amended C9: the line `"0.50,1.25,2.00,3.00"`. -/
theorem parsers_agree_on_plain_tokens_w :
    parse (String.mk (weightLineChars ⟨false, ['0'], ['5', '0']⟩
        ⟨false, ['1'], ['2', '5']⟩ ⟨false, ['2'], ['0', '0']⟩
        ⟨false, ['3'], ['0', '0']⟩ [])) =
      Frame.weight (DecTok.val ⟨false, ['0'], ['5', '0']⟩)
        (DecTok.val ⟨false, ['1'], ['2', '5']⟩)
        (DecTok.val ⟨false, ['2'], ['0', '0']⟩)
        (DecTok.val ⟨false, ['3'], ['0', '0']⟩) ∧
    read_weight (String.mk (weightLineChars ⟨false, ['0'], ['5', '0']⟩
        ⟨false, ['1'], ['2', '5']⟩ ⟨false, ['2'], ['0', '0']⟩
        ⟨false, ['3'], ['0', '0']⟩ [])) =
      some [.fin (DecTok.val ⟨false, ['0'], ['5', '0']⟩),
        .fin (DecTok.val ⟨false, ['1'], ['2', '5']⟩),
        .fin (DecTok.val ⟨false, ['2'], ['0', '0']⟩),
        .fin (DecTok.val ⟨false, ['3'], ['0', '0']⟩)] :=
  parsers_agree_on_plain_tokens ⟨false, ['0'], ['5', '0']⟩
    ⟨false, ['1'], ['2', '5']⟩ ⟨false, ['2'], ['0', '0']⟩
    ⟨false, ['3'], ['0', '0']⟩ (by decide) (by decide) (by decide) (by decide)
    rfl rfl rfl rfl

end CopController
